import Mathlib

/-!
Shallow embedding of the timeline-scheduling core of a client-side
project-planning application written in TypeScript/React:

* date utilities (`src/utils/dateUtils.ts`),
* project state operations (`src/hooks/useProject.ts`),
* timeline geometry, layout and pointer-gesture logic
  (`src/components/Timeline.tsx`),
* the zoom-level type (`src/types.ts`).

Calendar dates: the source represents dates as ISO-8601 `YYYY-MM-DD`
strings.  For valid dates the lexicographic string order used by the
TypeScript comparisons (`<`, `>`) agrees with chronological order, and
`addDays` / `daysBetween` act as addition / subtraction on the day
number of the date.  The embedding therefore represents a calendar date
by its day number, an integer, and the string comparisons of the source
become integer comparisons.  The runtime clock value `today` (used by
the date utilities as a fallback for empty lists) is passed in as an
explicit parameter.

Pixel coordinates are embedded as rationals: every arithmetic operation
the relevant source code performs on them (addition, subtraction,
multiplication, division, `Math.round`) is exact on the rationals.
-/

namespace Zeitplan

/-- A calendar date, identified with its day number.  ISO-8601 date
strings of the source are order-isomorphic to their day numbers. -/
abbrev CalendarDate := Int

/-- Embeds `addDays` of `src/utils/dateUtils.ts`: adding `days` whole
days to a date (the source performs the calendar rollover; on day
numbers this is addition). -/
def addDays (iso : CalendarDate) (days : Int) : CalendarDate :=
  iso + days

/-- Embeds `daysBetween` of `src/utils/dateUtils.ts`: the signed number
of whole days from `startD` to `endD`. -/
def daysBetween (startD endD : CalendarDate) : Int :=
  endD - startD

/-- Embeds `minDate` of `src/utils/dateUtils.ts` (lines 52-63): an empty
list falls back to today, otherwise `reduce((min, curr) => curr < min ?
curr : min)`. -/
def minDate (todayD : CalendarDate) : List CalendarDate → CalendarDate
  | [] => todayD
  | d :: ds => ds.foldl (fun mn curr => if curr < mn then curr else mn) d

/-- Embeds `maxDate` of `src/utils/dateUtils.ts` (lines 52-63): an empty
list falls back to today, otherwise `reduce((max, curr) => curr > max ?
curr : max)`. -/
def maxDate (todayD : CalendarDate) : List CalendarDate → CalendarDate
  | [] => todayD
  | d :: ds => ds.foldl (fun mx curr => if curr > mx then curr else mx) d

/-- The `mode` field of a Work Package (`src/types.ts`). -/
inductive Mode where
  | auto
  | manual
deriving Repr, DecidableEq

/-- Embeds `SubPackage` of `src/types.ts`. -/
structure SubPackage where
  id : String
  title : String
  start : CalendarDate
  endDate : CalendarDate
  category : Option String := none
  color : Option String := none
  assignedTo : Option (List String) := none
deriving Repr, DecidableEq

/-- Embeds `WorkPackage` of `src/types.ts`. -/
structure WorkPackage where
  id : String
  title : String
  start : CalendarDate
  endDate : CalendarDate
  mode : Mode
  subPackages : List SubPackage
deriving Repr, DecidableEq

/-- Embeds `Milestone` of `src/types.ts`. -/
structure Milestone where
  id : String
  title : String
  date : CalendarDate
deriving Repr, DecidableEq

/-- Embeds `ProjectSettings` of `src/types.ts`. -/
structure ProjectSettings where
  clampUapInsideManualAp : Bool
deriving Repr, DecidableEq

/-- Embeds `Project` of `src/types.ts`. -/
structure Project where
  id : String
  name : String
  description : Option String := none
  settings : ProjectSettings
  workPackages : List WorkPackage
  milestones : List Milestone
deriving Repr, DecidableEq

/-- Embeds `rollupWorkPackageDates` of `src/hooks/useProject.ts` (lines
105-139): find the Work Package by id (state unchanged when absent);
when it has no Sub-Packages return the state unchanged; otherwise
replace it by a copy whose start/end are the min/max of the
Sub-Package dates and whose mode is forced to auto. -/
def rollupWorkPackageDates (todayD : CalendarDate) (apId : String)
    (prev : Project) : Project :=
  match prev.workPackages.findIdx? (fun wp => wp.id == apId) with
  | none => prev
  | some wpIndex =>
    match prev.workPackages[wpIndex]? with
    | none => prev
    | some wp =>
      if wp.subPackages.length = 0 then
        prev
      else
        let starts := wp.subPackages.map (fun sp => sp.start)
        let ends := wp.subPackages.map (fun sp => sp.endDate)
        let newStart := minDate todayD starts
        let newEnd := maxDate todayD ends
        let updatedWp : WorkPackage :=
          { wp with start := newStart, endDate := newEnd, mode := Mode.auto }
        { prev with workPackages := prev.workPackages.set wpIndex updatedWp }

/-- Embeds the `Partial<SubPackage>` update records that the gesture
handler passes to `updateSubPackage`; absent fields leave the
Sub-Package field unchanged. -/
structure SubPackageUpdate where
  title : Option String := none
  start : Option CalendarDate := none
  endDate : Option CalendarDate := none
deriving Repr, DecidableEq

/-- Embeds the TypeScript object spread `{ ...sp, ...updates }` for a
Sub-Package and a partial update. -/
def applyUpdate (sp : SubPackage) (u : SubPackageUpdate) : SubPackage :=
  { sp with
    title := u.title.getD sp.title
    start := u.start.getD sp.start
    endDate := u.endDate.getD sp.endDate }

/-- Embeds `updateSubPackage` of `src/hooks/useProject.ts` (lines
224-253): find the Work Package by id and the Sub-Package by id inside
it (state unchanged when either is absent), then replace the
Sub-Package by the merge of itself with the partial update. -/
def updateSubPackage (apId uapId : String) (updates : SubPackageUpdate)
    (prev : Project) : Project :=
  match prev.workPackages.findIdx? (fun wp => wp.id == apId) with
  | none => prev
  | some wpIndex =>
    match prev.workPackages[wpIndex]? with
    | none => prev
    | some wp =>
      match wp.subPackages.findIdx? (fun sp => sp.id == uapId) with
      | none => prev
      | some spIndex =>
        match wp.subPackages[spIndex]? with
        | none => prev
        | some sp =>
          let updatedSp := applyUpdate sp updates
          let updatedWp : WorkPackage :=
            { wp with subPackages := wp.subPackages.set spIndex updatedSp }
          { prev with workPackages := prev.workPackages.set wpIndex updatedWp }

/-- Embeds `ZoomLevel` of `src/types.ts` (line 3): the four declared
zoom levels. -/
inductive ZoomLevel where
  | week
  | month
  | quarter
  | year
deriving Repr, DecidableEq

/-- One entry of the `ZOOM_CONFIG` object of
`src/components/Timeline.tsx`. -/
structure ZoomConfig where
  label : String
  tickDays : Int
  viewDays : Int
deriving Repr, DecidableEq

/-- Embeds the `ZOOM_CONFIG` object of `src/components/Timeline.tsx`
(lines 15-19).  The object has entries for week, month and quarter
only; indexing it with the fourth declared zoom level, `year`, yields
the JavaScript value `undefined`, embedded as `none`. -/
def ZOOM_CONFIG : ZoomLevel → Option ZoomConfig
  | ZoomLevel.week => some ⟨"Woche", 1, 30⟩
  | ZoomLevel.month => some ⟨"Monat", 7, 90⟩
  | ZoomLevel.quarter => some ⟨"Quartal", 14, 180⟩
  | ZoomLevel.year => none

/-- Layout constant of `src/components/Timeline.tsx` (line 22). -/
def BASE_ROW_HEIGHT : ℚ := 70

/-- Layout constant of `src/components/Timeline.tsx` (line 23). -/
def HEADER_HEIGHT : ℚ := 90

/-- Layout constant of `src/components/Timeline.tsx` (line 25). -/
def SUBBAR_HEIGHT : ℚ := 28

/-- Layout constant of `src/components/Timeline.tsx` (line 26). -/
def UAP_SPACING : ℚ := 10

/-- Layout constant of `src/components/Timeline.tsx` (line 27). -/
def ROW_PADDING : ℚ := 35

/-- Layout constant of `src/components/Timeline.tsx` (line 28). -/
def TIMELINE_PADDING_LEFT : ℚ := 80

/-- Layout constant of `src/components/Timeline.tsx` (line 29). -/
def TIMELINE_PADDING_RIGHT : ℚ := 60

/-- The fixed SVG canvas width, `const width = 2000` in
`src/components/Timeline.tsx` (line 88). -/
def timelineWidth : ℚ := 2000

/-- Embeds `getRowHeight` of `src/components/Timeline.tsx` (lines
71-75): base height for a Work Package without Sub-Packages, otherwise
base plus a band per Sub-Package plus bottom padding. -/
def getRowHeight (wp : WorkPackage) : ℚ :=
  let uapCount := wp.subPackages.length
  if uapCount = 0 then BASE_ROW_HEIGHT
  else BASE_ROW_HEIGHT + (uapCount * (SUBBAR_HEIGHT + UAP_SPACING)) + ROW_PADDING

/-- One entry of the `rowPositions` array of
`src/components/Timeline.tsx`. -/
structure RowPos where
  y : ℚ
  height : ℚ
deriving Repr, DecidableEq

/-- Embeds `rowPositions` of `src/components/Timeline.tsx` (lines
78-85): a reduce that pushes, for each Work Package, a record whose `y`
is the header height for the first row and otherwise the previous
y of the previous row plus its height, and whose height is `getRowHeight`. -/
def rowPositions (workPackages : List WorkPackage) : List RowPos :=
  workPackages.foldl
    (fun acc wp =>
      let prevY :=
        match acc.getLast? with
        | none => HEADER_HEIGHT
        | some last => last.y + last.height
      acc ++ [⟨prevY, getRowHeight wp⟩])
    []

/-- Embeds `dateToX` of `src/components/Timeline.tsx` (lines 95-99):
the linear mapping from a date to an x pixel coordinate, with
left/right padding around the available width. -/
def dateToX (viewStart : CalendarDate) (viewDays : Int)
    (date : CalendarDate) : ℚ :=
  let days : ℚ := (daysBetween viewStart date : ℤ)
  let availableWidth := timelineWidth - TIMELINE_PADDING_LEFT - TIMELINE_PADDING_RIGHT
  TIMELINE_PADDING_LEFT + (days / (viewDays : ℚ)) * availableWidth

/-- Embeds the JavaScript `Math.round`: round half toward positive
infinity, `floor(x + 1/2)`. -/
def jsRound (q : ℚ) : Int :=
  ⌊q + 1 / 2⌋

/-- Modelled from the spec: `xToDate(x)` is absent from the source
(`src/components/Timeline.tsx` defines only `dateToX`); the spec
defines it as the algebraic inverse of the linear date-to-pixel
mapping, rounded to the nearest whole day. -/
def xToDate (viewStart : CalendarDate) (viewDays : Int) (x : ℚ) : CalendarDate :=
  let availableWidth := timelineWidth - TIMELINE_PADDING_LEFT - TIMELINE_PADDING_RIGHT
  addDays viewStart (jsRound ((x - TIMELINE_PADDING_LEFT) / availableWidth * (viewDays : ℚ)))

/-- Embeds `clampUap` of `src/components/Timeline.tsx` (lines 102-116):
when the clamping setting is on and the owning Work Package exists and
is in manual mode, pull the start up to the Work Package start, the end
down to the Work Package end, and collapse the start onto the end if
the two clamps crossed. -/
def clampUap (clampUapInsideManualAp : Bool) (workPackages : List WorkPackage)
    (apId : String) (start endD : CalendarDate) : CalendarDate × CalendarDate :=
  if !clampUapInsideManualAp then (start, endD)
  else
    match workPackages.find? (fun wp => wp.id == apId) with
    | none => (start, endD)
    | some ap =>
      if ap.mode ≠ Mode.manual then (start, endD)
      else
        let clampedStart := if start < ap.start then ap.start else start
        let clampedEnd := if endD > ap.endDate then ap.endDate else endD
        let clampedStart := if clampedStart > clampedEnd then clampedEnd else clampedStart
        (clampedStart, clampedEnd)

/-- The three drag gesture kinds of `src/components/Timeline.tsx`. -/
inductive DragType where
  | move
  | resizeLeft
  | resizeRight
deriving Repr, DecidableEq

/-- Embeds the `dragState` record of `src/components/Timeline.tsx`
(lines 51-58). -/
structure DragState where
  type : DragType
  apId : String
  uapId : String
  initialX : ℚ
  initialStart : CalendarDate
  initialEnd : CalendarDate
deriving Repr, DecidableEq

/-- Embeds the delta computation of `handleMouseMove` in
`src/components/Timeline.tsx` (lines 141-143): `Math.round((deltaX /
rect.width) * viewDays)` where `rect.width` is the rendered width of
the SVG element. -/
def gestureDeltaDays (rectWidth : ℚ) (viewDays : Int) (deltaX : ℚ) : Int :=
  jsRound (deltaX / rectWidth * (viewDays : ℚ))

/-- Embeds the date computation of `handleMouseMove` in
`src/components/Timeline.tsx` (lines 138-168): convert the pointer
delta to whole days, shift or resize the origin range (resizing clamps
at the opposite edge so the range cannot invert), then apply
`clampUap`; the result is the `{start, end}` record emitted to
`onUpdateSubPackage`. -/
def handleMouseMove (viewDays : Int) (clampUapInsideManualAp : Bool)
    (workPackages : List WorkPackage) (drag : DragState)
    (rectWidth clientX : ℚ) : CalendarDate × CalendarDate :=
  let deltaX := clientX - drag.initialX
  let deltaDays := gestureDeltaDays rectWidth viewDays deltaX
  let range :=
    match drag.type with
    | DragType.move =>
        (addDays drag.initialStart deltaDays, addDays drag.initialEnd deltaDays)
    | DragType.resizeLeft =>
        let newStart := addDays drag.initialStart deltaDays
        let newEnd := drag.initialEnd
        (if newStart > newEnd then newEnd else newStart, newEnd)
    | DragType.resizeRight =>
        let newStart := drag.initialStart
        let newEnd := addDays drag.initialEnd deltaDays
        (newStart, if newEnd < newStart then newStart else newEnd)
  clampUap clampUapInsideManualAp workPackages drag.apId range.1 range.2

/-! ### Demonstration values used by witness theorems -/

/-- A Sub-Package demonstration value. -/
def spDemo1 : SubPackage :=
  { id := "u1", title := "U1", start := 10, endDate := 20 }

/-- A Sub-Package demonstration value. -/
def spDemo2 : SubPackage :=
  { id := "u2", title := "U2", start := 5, endDate := 15 }

/-- A Sub-Package demonstration value. -/
def spDemo3 : SubPackage :=
  { id := "u3", title := "U3", start := 12, endDate := 25 }

/-- A Work Package with three Sub-Packages. -/
def wpFull : WorkPackage :=
  { id := "w1", title := "W1", start := 0, endDate := 1,
    mode := Mode.manual, subPackages := [spDemo1, spDemo2, spDemo3] }

/-- A manual Work Package without Sub-Packages. -/
def wpEmpty : WorkPackage :=
  { id := "w2", title := "W2", start := 3, endDate := 9,
    mode := Mode.manual, subPackages := [] }

/-- A project demonstration value. -/
def projectDemo : Project :=
  { id := "p", name := "P", settings := ⟨false⟩,
    workPackages := [wpFull, wpEmpty], milestones := [] }

/-- A manual Work Package spanning days 10 to 20, used as clamping
boundary. -/
def apManual : WorkPackage :=
  { id := "ap1", title := "AP", start := 10, endDate := 20,
    mode := Mode.manual, subPackages := [] }

/-- A move gesture on the Sub-Package occupying days 10 to 20 of
`apManual`, started at pointer x = 0. -/
def dragMoveDemo : DragState :=
  { type := DragType.move, apId := "ap1", uapId := "u1",
    initialX := 0, initialStart := 10, initialEnd := 20 }

/-- A resize-left gesture on the same Sub-Package. -/
def dragResizeDemo : DragState :=
  { type := DragType.resizeLeft, apId := "ap1", uapId := "u1",
    initialX := 0, initialStart := 10, initialEnd := 20 }

/-! ### Helper lemmas -/

/-- The reduce of `minDate` computes the same value as a fold of the
binary minimum. -/
lemma foldl_srcMin_eq_min : ∀ (ds : List Int) (d : Int),
    ds.foldl (fun mn curr => if curr < mn then curr else mn) d = ds.foldl min d := by
  intro ds
  induction ds with
  | nil => intro d; rfl
  | cons c cs ih =>
    intro d
    simp only [List.foldl_cons]
    rw [ih]
    congr 1
    rcases lt_or_ge c d with h | h
    · simp [h, min_eq_right h.le]
    · have hnot : ¬ c < d := not_lt.mpr h
      simp [hnot, min_eq_left h]

/-- The reduce of `maxDate` computes the same value as a fold of the
binary maximum. -/
lemma foldl_srcMax_eq_max : ∀ (ds : List Int) (d : Int),
    ds.foldl (fun mx curr => if curr > mx then curr else mx) d = ds.foldl max d := by
  intro ds
  induction ds with
  | nil => intro d; rfl
  | cons c cs ih =>
    intro d
    simp only [List.foldl_cons]
    rw [ih]
    congr 1
    rcases lt_or_ge d c with h | h
    · simp [h, max_eq_right h.le]
    · have hnot : ¬ d < c := not_lt.mpr h
      simp [hnot, max_eq_left h]

/-- On a non-empty list, `minDate` returns exactly the minimum of the
list (the `today` fallback is irrelevant). -/
lemma minDate_cons (todayD d : CalendarDate) (ds : List CalendarDate) :
    (d :: ds).min? = some (minDate todayD (d :: ds)) := by
  simp only [minDate, foldl_srcMin_eq_min]
  rfl

/-- On a non-empty list, `maxDate` returns exactly the maximum of the
list (the `today` fallback is irrelevant). -/
lemma maxDate_cons (todayD d : CalendarDate) (ds : List CalendarDate) :
    (d :: ds).max? = some (maxDate todayD (d :: ds)) := by
  simp only [maxDate, foldl_srcMax_eq_max]
  rfl

/-! ### C1, C7: the rollup operation -/

/-- C1 (Rollup correctness): for every Work Package with a non-empty
Sub-Package list, the rollup replaces it by a Work Package whose start
is the minimum of the Sub-Package starts, whose end is the maximum of
the Sub-Package ends, and whose mode is auto. -/
theorem rollup_correct (todayD : CalendarDate) (apId : String) (prev : Project)
    (i : Nat) (wp wp' : WorkPackage)
    (hfind : prev.workPackages.findIdx? (fun w => w.id == apId) = some i)
    (hget : prev.workPackages[i]? = some wp)
    (hne : wp.subPackages ≠ [])
    (hres : (rollupWorkPackageDates todayD apId prev).workPackages[i]? = some wp') :
    wp'.mode = Mode.auto ∧
    (wp.subPackages.map (fun sp => sp.start)).min? = some wp'.start ∧
    (wp.subPackages.map (fun sp => sp.endDate)).max? = some wp'.endDate := by
  obtain ⟨ilt, -⟩ := List.getElem?_eq_some.mp hget
  have hlen : wp.subPackages.length ≠ 0 := by
    intro h0
    exact hne (List.eq_nil_of_length_eq_zero h0)
  rw [rollupWorkPackageDates, hfind] at hres
  dsimp only at hres
  rw [hget] at hres
  dsimp only at hres
  rw [if_neg hlen] at hres
  dsimp only at hres
  rw [List.getElem?_set_self ilt] at hres
  rw [Option.some.injEq] at hres
  obtain ⟨s0, ss, hcons⟩ := List.exists_cons_of_ne_nil hne
  subst hres
  refine ⟨rfl, ?_, ?_⟩
  · rw [hcons]
    simp only [List.map_cons]
    exact minDate_cons todayD _ _
  · rw [hcons]
    simp only [List.map_cons]
    exact maxDate_cons todayD _ _

/-- Witness for C1 at the spec example: Sub-Package starts 10, 5, 12
and ends 20, 15, 25 roll up to start 5, end 25, mode auto. -/
theorem rollup_correct_witness :
    ({ wpFull with start := 5, endDate := 25, mode := Mode.auto } : WorkPackage).mode = Mode.auto ∧
    ([spDemo1, spDemo2, spDemo3].map (fun sp => sp.start)).min? = some 5 ∧
    ([spDemo1, spDemo2, spDemo3].map (fun sp => sp.endDate)).max? = some 25 :=
  rollup_correct 0 "w1" projectDemo 0 wpFull
    { wpFull with start := 5, endDate := 25, mode := Mode.auto }
    (by decide) (by decide) (by decide) (by decide)

/-- C7 (Rollup no-op on empty children): when the targeted Work Package
has no Sub-Packages, the rollup returns the project state unchanged. -/
theorem rollup_empty_noop (todayD : CalendarDate) (apId : String) (prev : Project)
    (i : Nat) (wp : WorkPackage)
    (hfind : prev.workPackages.findIdx? (fun w => w.id == apId) = some i)
    (hget : prev.workPackages[i]? = some wp)
    (hempty : wp.subPackages = []) :
    rollupWorkPackageDates todayD apId prev = prev := by
  rw [rollupWorkPackageDates, hfind]
  dsimp only
  rw [hget]
  dsimp only
  rw [hempty]
  rfl

/-- Witness for C7: rolling up the empty manual Work Package of the
demonstration project leaves the project unchanged. -/
theorem rollup_empty_noop_witness :
    rollupWorkPackageDates 0 "w2" projectDemo = projectDemo :=
  rollup_empty_noop 0 "w2" projectDemo 1 wpEmpty (by decide) (by decide) (by decide)

/-! ### C10: missing-target tolerance of updateSubPackage -/

/-- C10 (Missing-target tolerance): when no Work Package has the given
id, or the found Work Package has no Sub-Package with the given id,
`updateSubPackage` returns the project state unchanged. -/
theorem update_missing_target_noop (apId uapId : String) (u : SubPackageUpdate)
    (prev : Project)
    (h : (∀ wp ∈ prev.workPackages, wp.id ≠ apId) ∨
         (∀ i wp, prev.workPackages.findIdx? (fun w => w.id == apId) = some i →
            prev.workPackages[i]? = some wp →
            ∀ sp ∈ wp.subPackages, sp.id ≠ uapId)) :
    updateSubPackage apId uapId u prev = prev := by
  rcases h with h | h
  · have hnone : prev.workPackages.findIdx? (fun w => w.id == apId) = none := by
      rw [List.findIdx?_eq_none_iff]
      intro x hx
      simp [h x hx]
    rw [updateSubPackage, hnone]
  · cases hfi : prev.workPackages.findIdx? (fun w => w.id == apId) with
    | none => rw [updateSubPackage, hfi]
    | some i =>
      cases hget : prev.workPackages[i]? with
      | none =>
        rw [updateSubPackage, hfi]
        dsimp only
        rw [hget]
      | some wp =>
        have hnone : wp.subPackages.findIdx? (fun sp => sp.id == uapId) = none := by
          rw [List.findIdx?_eq_none_iff]
          intro sp hsp
          simp [h i wp hfi hget sp hsp]
        rw [updateSubPackage, hfi]
        dsimp only
        rw [hget]
        dsimp only
        rw [hnone]

/-- Witness for C10: an update addressed to a non-existent Work Package
id leaves the demonstration project unchanged. -/
theorem update_missing_target_noop_witness :
    updateSubPackage "zzz" "u1" {} projectDemo = projectDemo :=
  update_missing_target_noop "zzz" "u1" {} projectDemo (Or.inl (by decide))

/-! ### Gesture lemmas -/

/-- Rounding a whole number of days is the identity. -/
lemma jsRound_intCast (n : Int) : jsRound ((n : ℚ)) = n := by
  rw [jsRound]
  apply Int.floor_eq_iff.mpr
  constructor
  · linarith
  · linarith

/-- The clamp step never inverts an ordered range. -/
lemma clampUap_le (b : Bool) (wps : List WorkPackage) (apId : String)
    (s e : CalendarDate) (h : s ≤ e) :
    (clampUap b wps apId s e).1 ≤ (clampUap b wps apId s e).2 := by
  rw [clampUap]
  split
  · exact h
  · split
    · exact h
    · split
      · exact h
      · dsimp only
        split_ifs <;> linarith

/-- When the clamping setting is off, or the owning Work Package is not
found or not manual, the clamp step is the identity. -/
lemma clampUap_id (b : Bool) (wps : List WorkPackage) (apId : String)
    (s e : CalendarDate)
    (h : b = false ∨
      ∀ ap, wps.find? (fun wp => wp.id == apId) = some ap → ap.mode ≠ Mode.manual) :
    clampUap b wps apId s e = (s, e) := by
  rcases h with rfl | h
  · rfl
  · rw [clampUap]
    split
    · rfl
    · split
      · rfl
      · next ap heq =>
        rw [if_pos (h ap heq)]

/-! ### C2: resize never inverts -/

/-- C2 (Resize never inverts): for a resize-left or resize-right
gesture with ordered origin dates, the dates emitted by the
pointer-move handler satisfy start ≤ end. -/
theorem resize_never_inverts (viewDays : Int) (b : Bool) (wps : List WorkPackage)
    (drag : DragState) (rectWidth clientX : ℚ)
    (hkind : drag.type = DragType.resizeLeft ∨ drag.type = DragType.resizeRight)
    (horigin : drag.initialStart ≤ drag.initialEnd) :
    (handleMouseMove viewDays b wps drag rectWidth clientX).1 ≤
      (handleMouseMove viewDays b wps drag rectWidth clientX).2 := by
  rw [handleMouseMove]
  dsimp only
  apply clampUap_le
  rcases hkind with h | h <;> rw [h] <;> dsimp only <;> split <;> linarith

/-- Witness for C2: a concrete resize-left gesture emits an ordered
range. -/
theorem resize_never_inverts_witness :
    (handleMouseMove 30 true [apManual] dragResizeDemo 300 50).1 ≤
      (handleMouseMove 30 true [apManual] dragResizeDemo 300 50).2 :=
  resize_never_inverts 30 true [apManual] dragResizeDemo 300 50
    (Or.inl rfl) (by decide)

/-! ### C3: move preserves duration -/

/-- Counterexample for C3 as stated: with the boundary-clamping setting
enabled and the owning Work Package in manual mode, a move gesture by
five days on a Sub-Package spanning the whole Work Package shrinks the
duration from 10 to 5 days. -/
theorem move_duration_cex :
    ¬ (daysBetween (handleMouseMove 30 true [apManual] dragMoveDemo 300 50).1
          (handleMouseMove 30 true [apManual] dragMoveDemo 300 50).2 =
        daysBetween dragMoveDemo.initialStart dragMoveDemo.initialEnd) := by
  have h5 : gestureDeltaDays 300 30 50 = 5 := by
    rw [gestureDeltaDays, jsRound]
    apply Int.floor_eq_iff.mpr
    norm_num
  have hval : handleMouseMove 30 true [apManual] dragMoveDemo 300 50 = (15, 20) := by
    rw [handleMouseMove]
    dsimp only [dragMoveDemo]
    rw [show (50 : ℚ) - 0 = 50 by norm_num, h5]
    decide
  intro hcontra
  rw [hval] at hcontra
  exact absurd hcontra (by decide)

/-- C3 amended (Move preserves duration): for every Sub-Package and
every pointer delta, a move gesture preserves the duration, provided
the clamp step is inactive: the boundary-clamping setting is disabled,
or the owning Work Package is absent or not in manual mode. -/
theorem move_preserves_duration_unclamped (viewDays : Int) (b : Bool)
    (wps : List WorkPackage) (drag : DragState) (rectWidth clientX : ℚ)
    (hkind : drag.type = DragType.move)
    (hnoclamp : b = false ∨
      ∀ ap, wps.find? (fun wp => wp.id == drag.apId) = some ap → ap.mode ≠ Mode.manual) :
    daysBetween (handleMouseMove viewDays b wps drag rectWidth clientX).1
        (handleMouseMove viewDays b wps drag rectWidth clientX).2 =
      daysBetween drag.initialStart drag.initialEnd := by
  rw [handleMouseMove]
  dsimp only
  rw [hkind]
  dsimp only
  rw [clampUap_id _ _ _ _ _ hnoclamp]
  simp only [daysBetween, addDays]
  omega

/-- Witness for C3 amended: a concrete move gesture with the clamping
setting disabled preserves the 10-day duration. -/
theorem move_preserves_duration_unclamped_witness :
    daysBetween (handleMouseMove 30 false [apManual] dragMoveDemo 300 50).1
        (handleMouseMove 30 false [apManual] dragMoveDemo 300 50).2 =
      daysBetween dragMoveDemo.initialStart dragMoveDemo.initialEnd :=
  move_preserves_duration_unclamped 30 false [apManual] dragMoveDemo 300 50
    rfl (Or.inl rfl)

/-! ### C4: clamping containment -/

/-- Counterexample for C4 as stated: clamping the candidate range
[1, 5] against the manual Work Package [10, 20] yields [5, 5], which
lies entirely outside the Work Package range. -/
theorem clamp_containment_cex :
    ¬ (apManual.start ≤ (clampUap true [apManual] "ap1" 1 5).1 ∧
       (clampUap true [apManual] "ap1" 1 5).1 ≤ apManual.endDate ∧
       apManual.start ≤ (clampUap true [apManual] "ap1" 1 5).2 ∧
       (clampUap true [apManual] "ap1" 1 5).2 ≤ apManual.endDate) := by
  decide

/-- C4 amended (Clamping containment): with the boundary-clamping
setting enabled and the owning Work Package found in manual mode with
an ordered range, the clamp step maps any candidate range whose end
does not precede the Work Package start into the Work Package range.
The counterexample shows the added hypothesis on the candidate end is
necessary. -/
theorem clamp_containment_amended (wps : List WorkPackage) (apId : String)
    (s e : CalendarDate) (ap : WorkPackage)
    (hfind : wps.find? (fun wp => wp.id == apId) = some ap)
    (hmode : ap.mode = Mode.manual)
    (hwf : ap.start ≤ ap.endDate)
    (hreach : ap.start ≤ e) :
    ap.start ≤ (clampUap true wps apId s e).1 ∧
    (clampUap true wps apId s e).1 ≤ ap.endDate ∧
    ap.start ≤ (clampUap true wps apId s e).2 ∧
    (clampUap true wps apId s e).2 ≤ ap.endDate := by
  rw [clampUap]
  split
  · simp at *
  · rw [hfind]
    dsimp only
    rw [if_neg (by simp [hmode])]
    dsimp only
    split_ifs <;> refine ⟨by linarith, by linarith, by linarith, by linarith⟩

/-- Witness for C4 amended: clamping the candidate [15, 25] against the
manual Work Package [10, 20] stays inside [10, 20]. -/
theorem clamp_containment_amended_witness :
    apManual.start ≤ (clampUap true [apManual] "ap1" 15 25).1 ∧
    (clampUap true [apManual] "ap1" 15 25).1 ≤ apManual.endDate ∧
    apManual.start ≤ (clampUap true [apManual] "ap1" 15 25).2 ∧
    (clampUap true [apManual] "ap1" 15 25).2 ≤ apManual.endDate :=
  clamp_containment_amended [apManual] "ap1" 15 25 apManual
    (by decide) rfl (by decide) (by decide)

/-! ### C6: gesture delta conversion -/

/-- Counterexample for C6 as stated: at a pointer delta of 32 pixels in
the week zoom (30 viewport days), dividing by the padded available
width (1860) rounds to one day, while the code divides by the full
rendered width (2000) and rounds to zero days. -/
theorem gesture_delta_cex :
    ¬ (gestureDeltaDays timelineWidth 30 32 =
        jsRound (32 / ((timelineWidth - TIMELINE_PADDING_LEFT - TIMELINE_PADDING_RIGHT) / 30))) := by
  have h1 : gestureDeltaDays timelineWidth 30 32 = 0 := by
    rw [gestureDeltaDays, jsRound]
    apply Int.floor_eq_iff.mpr
    norm_num [timelineWidth]
  have h2 : jsRound (32 / ((timelineWidth - TIMELINE_PADDING_LEFT - TIMELINE_PADDING_RIGHT) / 30)) = 1 := by
    rw [jsRound]
    apply Int.floor_eq_iff.mpr
    norm_num [timelineWidth, TIMELINE_PADDING_LEFT, TIMELINE_PADDING_RIGHT]
  rw [h1, h2]
  decide

/-- C6 amended (Gesture delta conversion): on every pointer move the
delta in days is round(deltaX / pixelsPerDay) with pixelsPerDay =
rectWidth / viewportDays, where rectWidth is the full rendered width of
the SVG element, not the padding-reduced available width used by
dateToX. -/
theorem gesture_delta_full_width (rectWidth : ℚ) (viewDays : Int) (deltaX : ℚ) :
    gestureDeltaDays rectWidth viewDays deltaX =
      jsRound (deltaX / (rectWidth / (viewDays : ℚ))) := by
  rw [gestureDeltaDays]
  congr 1
  rw [div_div_eq_mul_div, div_mul_eq_mul_div]

/-! ### Layout lemmas -/

/-- Recursive characterization of the `rowPositions` reduce: the rows
of a Work Package list laid out downward from a starting offset. -/
def rowPositionsFrom (y0 : ℚ) : List WorkPackage → List RowPos
  | [] => []
  | wp :: rest => ⟨y0, getRowHeight wp⟩ :: rowPositionsFrom (y0 + getRowHeight wp) rest

/-- The reduce of `rowPositions` agrees with the recursive layout
starting at the header height. -/
lemma rowPositions_eq (wps : List WorkPackage) :
    rowPositions wps = rowPositionsFrom HEADER_HEIGHT wps := by
  have go : ∀ (l : List WorkPackage) (acc : List RowPos),
      l.foldl
        (fun acc wp =>
          let prevY :=
            match acc.getLast? with
            | none => HEADER_HEIGHT
            | some last => last.y + last.height
          acc ++ [⟨prevY, getRowHeight wp⟩]) acc
      = acc ++ rowPositionsFrom
          (match acc.getLast? with
           | none => HEADER_HEIGHT
           | some last => last.y + last.height) l := by
    intro l
    induction l with
    | nil => intro acc; simp [rowPositionsFrom]
    | cons wp rest ih =>
      intro acc
      rw [List.foldl_cons, ih]
      rw [List.getLast?_concat]
      rw [rowPositionsFrom]
      simp
  rw [rowPositions, go]
  simp

/-- The base row height is nonnegative. -/
lemma BASE_ROW_HEIGHT_nonneg : (0 : ℚ) ≤ BASE_ROW_HEIGHT := by
  norm_num [BASE_ROW_HEIGHT]

/-- Every row height is at least the base row height. -/
lemma getRowHeight_ge (wp : WorkPackage) : BASE_ROW_HEIGHT ≤ getRowHeight wp := by
  rw [getRowHeight]
  split
  · exact le_refl _
  · have h1 : (0 : ℚ) ≤ (wp.subPackages.length : ℚ) * (SUBBAR_HEIGHT + UAP_SPACING) := by
      have : (0 : ℚ) ≤ (wp.subPackages.length : ℚ) := Nat.cast_nonneg _
      have : (0 : ℚ) ≤ SUBBAR_HEIGHT + UAP_SPACING := by
        norm_num [SUBBAR_HEIGHT, UAP_SPACING]
      positivity
    have h2 : (0 : ℚ) ≤ ROW_PADDING := by norm_num [ROW_PADDING]
    linarith

/-- Every record in a recursive layout has height at least the base
row height. -/
lemma rowPositionsFrom_height_ge :
    ∀ (wps : List WorkPackage) (y0 : ℚ) (p : RowPos),
      p ∈ rowPositionsFrom y0 wps → BASE_ROW_HEIGHT ≤ p.height := by
  intro wps
  induction wps with
  | nil => intro y0 p hp; simp [rowPositionsFrom] at hp
  | cons wp rest ih =>
    intro y0 p hp
    rw [rowPositionsFrom] at hp
    rcases List.mem_cons.mp hp with rfl | hp1
    · exact getRowHeight_ge wp
    · exact ih _ p hp1

/-- Every offset in a recursive layout is at least its starting
offset. -/
lemma rowPositionsFrom_y_lower :
    ∀ (wps : List WorkPackage) (y0 : ℚ) (i : Nat) (p : RowPos),
      (rowPositionsFrom y0 wps)[i]? = some p → y0 ≤ p.y := by
  intro wps
  induction wps with
  | nil => intro y0 i p hp; simp [rowPositionsFrom] at hp
  | cons wp rest ih =>
    intro y0 i p hp
    rw [rowPositionsFrom] at hp
    cases i with
    | zero =>
      rw [List.getElem?_cons_zero, Option.some.injEq] at hp
      rw [← hp]
    | succ i =>
      rw [List.getElem?_cons_succ] at hp
      have h1 := ih _ i p hp
      have h2 := getRowHeight_ge wp
      have h3 := BASE_ROW_HEIGHT_nonneg
      linarith

/-- In a recursive layout, each offset is the previous offset plus the
previous height. -/
lemma rowPositionsFrom_succ :
    ∀ (wps : List WorkPackage) (y0 : ℚ) (i : Nat) (p q : RowPos),
      (rowPositionsFrom y0 wps)[i]? = some p →
      (rowPositionsFrom y0 wps)[i + 1]? = some q → q.y = p.y + p.height := by
  intro wps
  induction wps with
  | nil => intro y0 i p q hp hq; simp [rowPositionsFrom] at hp
  | cons wp rest ih =>
    intro y0 i p q hp hq
    rw [rowPositionsFrom] at hp hq
    cases i with
    | zero =>
      rw [List.getElem?_cons_zero, Option.some.injEq] at hp
      rw [List.getElem?_cons_succ] at hq
      cases rest with
      | nil => simp [rowPositionsFrom] at hq
      | cons r rs =>
        rw [rowPositionsFrom, List.getElem?_cons_zero, Option.some.injEq] at hq
        rw [← hp, ← hq]
    | succ i =>
      rw [List.getElem?_cons_succ] at hp hq
      exact ih _ i p q hp hq

/-- Offsets in a recursive layout are monotone in the index. -/
lemma rowPositionsFrom_mono :
    ∀ (wps : List WorkPackage) (y0 : ℚ) (i j : Nat) (p q : RowPos),
      i ≤ j → (rowPositionsFrom y0 wps)[i]? = some p →
      (rowPositionsFrom y0 wps)[j]? = some q → p.y ≤ q.y := by
  intro wps
  induction wps with
  | nil => intro y0 i j p q hij hp hq; simp [rowPositionsFrom] at hp
  | cons wp rest ih =>
    intro y0 i j p q hij hp hq
    cases i with
    | zero =>
      have hpy : p.y = y0 := by
        rw [rowPositionsFrom, List.getElem?_cons_zero, Option.some.injEq] at hp
        rw [← hp]
      have := rowPositionsFrom_y_lower (wp :: rest) y0 j q hq
      linarith [this]
    | succ i =>
      cases j with
      | zero => omega
      | succ j =>
        rw [rowPositionsFrom, List.getElem?_cons_succ] at hp hq
        exact ih _ i j p q (by omega) hp hq

/-- In a recursive layout, the height at each index is the row height
of the Work Package at that index. -/
lemma rowPositionsFrom_height_at :
    ∀ (wps : List WorkPackage) (y0 : ℚ) (i : Nat) (wp : WorkPackage) (p : RowPos),
      wps[i]? = some wp → (rowPositionsFrom y0 wps)[i]? = some p →
      p.height = getRowHeight wp := by
  intro wps
  induction wps with
  | nil => intro y0 i wp p hw hp; simp at hw
  | cons w rest ih =>
    intro y0 i wp p hw hp
    rw [rowPositionsFrom] at hp
    cases i with
    | zero =>
      rw [List.getElem?_cons_zero, Option.some.injEq] at hw hp
      rw [← hp, ← hw]
    | succ i =>
      rw [List.getElem?_cons_succ] at hw hp
      exact ih _ i wp p hw hp

/-! ### C8: layout monotonicity -/

/-- C8 (Layout monotonicity): row offsets are non-decreasing with the
index; the first offset is the header height and each following offset
is the previous offset plus the previous height; every row height is at
least the base row height; and the height is the base height for a
Work Package without Sub-Packages and base + count (subbar + spacing) +
padding otherwise. -/
theorem layout_monotonicity (wps : List WorkPackage) :
    (∀ (i j : Nat) (p q : RowPos), i ≤ j → (rowPositions wps)[i]? = some p →
       (rowPositions wps)[j]? = some q → p.y ≤ q.y) ∧
    (∀ p : RowPos, (rowPositions wps)[0]? = some p → p.y = HEADER_HEIGHT) ∧
    (∀ (i : Nat) (p q : RowPos), (rowPositions wps)[i]? = some p →
       (rowPositions wps)[i + 1]? = some q → q.y = p.y + p.height) ∧
    (∀ p : RowPos, p ∈ rowPositions wps → BASE_ROW_HEIGHT ≤ p.height) ∧
    (∀ (i : Nat) (wp : WorkPackage) (p : RowPos), wps[i]? = some wp → (rowPositions wps)[i]? = some p →
       p.height =
         (if wp.subPackages.length = 0 then BASE_ROW_HEIGHT
          else BASE_ROW_HEIGHT + wp.subPackages.length * (SUBBAR_HEIGHT + UAP_SPACING)
            + ROW_PADDING)) := by
  rw [rowPositions_eq]
  refine ⟨?_, ?_, ?_, ?_, ?_⟩
  · intro i j p q hij hp hq
    exact rowPositionsFrom_mono wps HEADER_HEIGHT i j p q hij hp hq
  · intro p hp
    cases wps with
    | nil => simp [rowPositionsFrom] at hp
    | cons wp rest =>
      rw [rowPositionsFrom, List.getElem?_cons_zero, Option.some.injEq] at hp
      rw [← hp]
  · intro i p q hp hq
    exact rowPositionsFrom_succ wps HEADER_HEIGHT i p q hp hq
  · intro p hp
    exact rowPositionsFrom_height_ge wps HEADER_HEIGHT p hp
  · intro i wp p hw hp
    rw [rowPositionsFrom_height_at wps HEADER_HEIGHT i wp p hw hp, getRowHeight]

/-- Witness for C8: in the demonstration project the first row starts
at offset 90 with height 219 and the second at 309 with height 70. -/
theorem layout_monotonicity_witness :
    ((⟨90, 219⟩ : RowPos).y ≤ (⟨309, 70⟩ : RowPos).y) ∧
    BASE_ROW_HEIGHT ≤ (⟨309, 70⟩ : RowPos).height := by
  constructor
  · refine (layout_monotonicity [wpFull, wpEmpty]).1 0 1 ⟨90, 219⟩ ⟨309, 70⟩ (by omega) ?_ ?_
    · rw [rowPositions_eq]
      simp [rowPositionsFrom, getRowHeight, wpFull, wpEmpty, spDemo1, spDemo2, spDemo3,
        HEADER_HEIGHT, BASE_ROW_HEIGHT, SUBBAR_HEIGHT, UAP_SPACING, ROW_PADDING]
      norm_num
    · rw [rowPositions_eq]
      simp [rowPositionsFrom, getRowHeight, wpFull, wpEmpty, spDemo1, spDemo2, spDemo3,
        HEADER_HEIGHT, BASE_ROW_HEIGHT, SUBBAR_HEIGHT, UAP_SPACING, ROW_PADDING]
      norm_num
  · refine (layout_monotonicity [wpFull, wpEmpty]).2.2.2.1 ⟨309, 70⟩ ?_
    rw [rowPositions_eq]
    simp [rowPositionsFrom, getRowHeight, wpFull, wpEmpty, spDemo1, spDemo2, spDemo3,
      HEADER_HEIGHT, BASE_ROW_HEIGHT, SUBBAR_HEIGHT, UAP_SPACING, ROW_PADDING]
    norm_num

/-! ### C5: date round trip -/

/-- C5 (Date round-trip): for every date and every defined zoom
configuration, translating the date to an x coordinate and back through
the rounded inverse recovers the date exactly (well within the one-day
tolerance). -/
theorem date_round_trip (z : ZoomLevel) (c : ZoomConfig) (viewStart d : CalendarDate)
    (hz : ZOOM_CONFIG z = some c) :
    xToDate viewStart c.viewDays (dateToX viewStart c.viewDays d) = d := by
  have hv : (c.viewDays : ℚ) ≠ 0 := by
    cases z with
    | week =>
      rw [ZOOM_CONFIG, Option.some.injEq] at hz
      rw [← hz]
      norm_num
    | month =>
      rw [ZOOM_CONFIG, Option.some.injEq] at hz
      rw [← hz]
      norm_num
    | quarter =>
      rw [ZOOM_CONFIG, Option.some.injEq] at hz
      rw [← hz]
      norm_num
    | year => simp [ZOOM_CONFIG] at hz
  have hA : (timelineWidth - TIMELINE_PADDING_LEFT - TIMELINE_PADDING_RIGHT : ℚ) ≠ 0 := by
    norm_num [timelineWidth, TIMELINE_PADDING_LEFT, TIMELINE_PADDING_RIGHT]
  have key : ∀ n v A : ℚ, A ≠ 0 → v ≠ 0 →
      (TIMELINE_PADDING_LEFT + n / v * A - TIMELINE_PADDING_LEFT) / A * v = n := by
    intro n v A hA0 hv0
    field_simp
    ring
  rw [xToDate, dateToX]
  rw [key _ _ _ hA hv, jsRound_intCast, addDays, daysBetween]
  ring

/-- Witness for C5: with the week configuration and view start at day
100, day 117 round-trips exactly. -/
theorem date_round_trip_witness :
    xToDate 100 30 (dateToX 100 30 117) = 117 :=
  date_round_trip ZoomLevel.week ⟨"Woche", 1, 30⟩ 100 117 rfl

/-! ### C9: zoom configuration totality -/

/-- C9 finding: the declared zoom-level type contains `year` (offered
by the Toolbar zoom options), but the `ZOOM_CONFIG` lookup of the
Timeline yields undefined for it, so the accesses `config.viewDays` and
`config.tickDays` dereference undefined when the year level is
selected. -/
theorem zoom_config_year_undefined : ZOOM_CONFIG ZoomLevel.year = none := rfl

end Zeitplan
